import Mathlib

/-!
Verification development for the sftools query/pagination core.

The definitions below are shallow embeddings of the Python sources:
* `src/sftools/soql.py`   — the SOQL query builder (`SOQL`, `WhereUtil`)
* `src/sftools/result.py` — paged results (`QueryResult.__add__`)
* `src/sftools/sf.py`     — the pagination engine (`SF.query`, `SF.query_count`)
                            and the session-retry wrapper (`SF._sf_call_and_refresh`)
* `src/sftools/type.py`   — the per-type identity cache (`SFType._record_to_sfobject`)

Python `None`/falsiness is modelled with `Option` and explicit truthiness
tests; Python `int` is modelled with `Int`; exceptions with `Except`.
-/

namespace Sftools

/-- Truthiness of an optional string: Python `if value:` is true for a
string value that is neither `None` nor the empty string. -/
def truthyStr : Option String → Bool
  | Option.none => false
  | Option.some s => s ≠ ""

/-- Input to `SOQL.list_from_csv`: Python `None`, a comma-separated string,
or a list of strings. -/
inductive CsvInput where
  | nil : CsvInput
  | str (s : String) : CsvInput
  | lst (l : List String) : CsvInput
deriving DecidableEq

/-- Python `value.split(',')` on the character list: split at every comma,
keeping empty parts (structural recursion so that the kernel can evaluate
it, unlike `String.splitOn`). -/
def splitOnCommaAux : List Char → List Char → List (List Char)
  | [], cur => [cur.reverse]
  | c :: rest, cur =>
    if c = ',' then cur.reverse :: splitOnCommaAux rest []
    else splitOnCommaAux rest (c :: cur)

/-- Python `value.split(',')`. -/
def splitOnComma (s : String) : List String :=
  (splitOnCommaAux s.data []).map String.mk

/-- Python `v.strip()`: drop leading and trailing whitespace. -/
def stripStr (s : String) : String :=
  String.mk (((s.data.dropWhile Char.isWhitespace).reverse.dropWhile
    Char.isWhitespace).reverse)

/-- Order-preserving removal of duplicates, keeping the FIRST occurrence of
each element: Python `dict([(v, None) for v in value])` key order. -/
def dedupFirstAux : List String → List String → List String
  | _, [] => []
  | seen, v :: rest =>
    if v ∈ seen then dedupFirstAux seen rest
    else v :: dedupFirstAux (v :: seen) rest

/-- `dedupFirst l` keeps the first occurrence of each element of `l`. -/
def dedupFirst (l : List String) : List String := dedupFirstAux [] l

/-- `SOQL.list_from_csv` (src/sftools/soql.py): on falsy input return
`[default] if default else []`; a string is split on commas and each part
stripped; then empty entries are dropped and duplicates removed keeping
first-seen order. Lists are not stripped, matching the source. -/
def listFromCsv (value : CsvInput) (default : Option String) : List String :=
  let dflt : List String :=
    match default with
    | Option.some d => if d ≠ "" then [d] else []
    | Option.none => []
  match value with
  | CsvInput.nil => dflt
  | CsvInput.str s =>
    if s = "" then dflt
    else dedupFirst ((((splitOnComma s).map stripStr)).filter (fun v => v ≠ ""))
  | CsvInput.lst l =>
    if l = [] then dflt
    else dedupFirst (l.filter (fun v => v ≠ ""))

/-- The state of a `SOQL` query object (src/sftools/soql.py): the backing
fields `_SELECT`, `_FROM`, `_WHERE`, `_ORDER_BY`, `_LIMIT`, `_OFFSET` and
`preload_fields`. -/
structure SOQLState where
  SELECT : List String
  FROM : Option String
  WHERE : Option String
  ORDER_BY : List String
  LIMIT : Int
  OFFSET : Int
  preload_fields : Option Bool
deriving DecidableEq

/-- The `SELECT` setter: `self._SELECT = self.list_from_csv(value)`. -/
def SELECTset (q : SOQLState) (value : CsvInput) : SOQLState :=
  { q with SELECT := listFromCsv value Option.none }

/-- `SOQL.SELECT_AND`: `self.SELECT += self.list_from_csv(value)` re-enters
the `SELECT` setter with the concatenated list. -/
def SELECT_AND (q : SOQLState) (value : CsvInput) : SOQLState :=
  SELECTset q (CsvInput.lst (q.SELECT ++ listFromCsv value Option.none))

/-- The `FROM` setter: raises `ValueError` when the value is truthy and
contains a comma, otherwise stores it. -/
def FROMset (q : SOQLState) (value : Option String) : Except String SOQLState :=
  if truthyStr value = true ∧ ',' ∈ (value.getD "").data then
    Except.error ("Only support a single object in FROM: " ++ value.getD "")
  else
    Except.ok { q with FROM := value }

/-- The `LIMIT` setter: `self._LIMIT = int(value or 0)`; never raises. -/
def LIMITset (q : SOQLState) (value : Option Int) : Except String SOQLState :=
  Except.ok { q with LIMIT := value.getD 0 }

/-- The `OFFSET` setter: `self._OFFSET = int(value or 0)`; never raises. -/
def OFFSETset (q : SOQLState) (value : Option Int) : Except String SOQLState :=
  Except.ok { q with OFFSET := value.getD 0 }

/-- The `ORDER_BY` setter, with default `'Id'`. -/
def ORDER_BYset (q : SOQLState) (value : CsvInput) : SOQLState :=
  { q with ORDER_BY := listFromCsv value (Option.some "Id") }

/-- The `ORDER_BY` deleter: `self._ORDER_BY = []`. -/
def ORDER_BYdel (q : SOQLState) : SOQLState :=
  { q with ORDER_BY := [] }

/-- `SOQL.clause` (src/sftools/soql.py): render the query text, raising
`ValueError` when `SELECT` or `FROM` is falsy; each clause is appended only
when its field is truthy (non-empty / nonzero). -/
def clause (q : SOQLState) : Except String String :=
  if q.SELECT = [] then Except.error "SELECT is required"
  else if ¬ truthyStr q.FROM then Except.error "FROM is required"
  else
    let s0 := "SELECT " ++ String.intercalate "," q.SELECT ++ " FROM " ++ q.FROM.getD ""
    let s1 := if truthyStr q.WHERE then s0 ++ " WHERE " ++ q.WHERE.getD "" else s0
    let s2 := if q.ORDER_BY ≠ [] then s1 ++ " ORDER BY " ++ String.intercalate "," q.ORDER_BY else s1
    let s3 := if q.LIMIT ≠ 0 then s2 ++ " LIMIT " ++ toString q.LIMIT else s2
    let s4 := if q.OFFSET ≠ 0 then s3 ++ " OFFSET " ++ toString q.OFFSET else s3
    Except.ok s4

/-- `WhereUtil.IN` (src/sftools/soql.py): `None` when the name is falsy or
no truthy values remain; otherwise each value individually quoted. -/
def whereIN (name : Option String) (args : List (Option String)) : Option String :=
  if ¬ truthyStr name then Option.none
  else
    let inlist := (args.filter truthyStr).map (fun a => "\x27" ++ a.getD "" ++ "\x27")
    if inlist = [] then Option.none
    else Option.some (name.getD "" ++ " IN (" ++ String.intercalate "," inlist ++ ")")

/-- `WhereUtil.LIKE`: `None` when name or value is falsy. -/
def whereLIKE (name : Option String) (value : Option String) : Option String :=
  if ¬ truthyStr name then Option.none
  else if ¬ truthyStr value then Option.none
  else Option.some (name.getD "" ++ " LIKE \x27%" ++ value.getD "" ++ "%\x27")

/-- `WhereUtil.JOIN`: parenthesize each truthy fragment and join with
`  action  `; always returns a string (empty when nothing survives). -/
def whereJOIN (action : String) (args : List (Option String)) : String :=
  String.intercalate (" " ++ action ++ " ")
    ((args.filter truthyStr).map (fun a => "(" ++ a.getD "" ++ ")"))

/-- `WhereUtil.AND`. -/
def whereAND (args : List (Option String)) : String := whereJOIN "AND" args

/-- `WhereUtil.OR`. -/
def whereOR (args : List (Option String)) : String := whereJOIN "OR" args

/-- A raw record: an insertion-ordered string-to-string mapping
(Python `dict`). -/
abbrev RecordMap := List (String × String)

/-- Python `dict` lookup (keys are unique in a real `dict`; first match). -/
def dictGet : RecordMap → String → Option String
  | [], _ => Option.none
  | (k', v') :: rest, k => if k' = k then Option.some v' else dictGet rest k

/-- Python `d[k] = v`: replace the value at an existing key in place,
else append the new key at the end. -/
def dictSet : RecordMap → String → String → RecordMap
  | [], k, v => [(k, v)]
  | (k', v') :: rest, k, v =>
    if k' = k then (k, v) :: rest else (k', v') :: dictSet rest k v

/-- Python `d.update(new)`: set each key of `new` in iteration order. -/
def dictUpdate (d new : RecordMap) : RecordMap :=
  new.foldl (fun acc kv => dictSet acc kv.1 kv.2) d

/-- The raw `_result` dict backing a `QueryResult`
(src/sftools/result.py): the keys `done`, `totalSize`, `records`,
each possibly absent. -/
structure QRDict where
  done : Option Bool
  totalSize : Option Int
  records : Option (List RecordMap)
deriving DecidableEq

/-- `QueryResult.done`: `self._result.get('done', True)`. -/
def QRDict.doneP (d : QRDict) : Bool := d.done.getD true

/-- `QueryResult.totalSize`: `int(self._result.get('totalSize', 0))`. -/
def QRDict.totalSizeP (d : QRDict) : Int := d.totalSize.getD 0

/-- `QueryResult._records`: `self._result.get('records', [])`. -/
def QRDict.recordsP (d : QRDict) : List RecordMap := d.records.getD []

/-- `QueryResult.__add__` (src/sftools/result.py): copy the right-hand
dict, then set `done` to the OR of the `done` flags, `totalSize` to the SUM
of the two `totalSize` values, and `records` to the concatenation. -/
def qradd (a b : QRDict) : QRDict :=
  { done := Option.some (a.doneP || b.doneP)
    totalSize := Option.some (a.totalSizeP + b.totalSizeP)
    records := Option.some ((a.records.getD []) ++ (b.records.getD [])) }

/-- `SF.query_count`'s mutation of its (copied) query: set `SELECT` to
`COUNT()` and delete `ORDER_BY` (src/sftools/sf.py). -/
def countVariant (soql : SOQLState) : SOQLState :=
  ORDER_BYdel (SELECTset soql (CsvInput.str "COUNT()"))

/-- `SF.query_count` (src/sftools/sf.py): run the COUNT variant of the
query through `_query` and return its `totalSize`. `fetch` stands for
`SF._query`, the one remote round-trip. -/
def queryCount (fetch : SOQLState → QRDict) (soql : SOQLState) : Int :=
  (fetch (countVariant soql)).totalSizeP

/-- The `while results.totalSize < count` page loop of `SF.query`
(src/sftools/sf.py): set the offset to the accumulated `totalSize`,
fetch, and fold the new page in with `QueryResult.__add__`. Python has no
fuel; the extra `Nat` bounds recursion and is irrelevant whenever large
enough. Also returns the query states passed to each loop fetch, in
order. -/
def runPages (fetch : SOQLState → QRDict) (count : Int) :
    Nat → SOQLState → QRDict → QRDict × List SOQLState
  | 0, _, results => (results, [])
  | fuel + 1, soql, results =>
    if results.totalSizeP < count then
      let soql' := { soql with OFFSET := results.totalSizeP }
      let page := fetch soql'
      let out := runPages fetch count fuel soql' (qradd results page)
      (out.1, soql' :: out.2)
    else (results, [])

/-- `SF.query` (src/sftools/sf.py) on a `SOQL` argument: copy the query,
count, resolve `preload_fields` (defaulting to the client's flag), switch
to `FIELDS(ALL)` with hard limit 200 when preloading, cap count and hard
limit by an explicit `LIMIT`, bounds-check against `2000 + hard_limit`,
then run the page loop. Returns the accumulated result together with the
query states passed to each page fetch (first fetch included), in order. -/
def SFquery (fetch : SOQLState → QRDict) (sfPreload : Bool) (fuel : Nat)
    (soql0 : SOQLState) : Except String (QRDict × List SOQLState) :=
  let soql := soql0
  let count := queryCount fetch soql
  let hardLimit : Int := 2000
  let soql := if soql.preload_fields = Option.none
              then { soql with preload_fields := Option.some sfPreload } else soql
  let step :=
    if soql.preload_fields = Option.some true
    then (SELECTset soql (CsvInput.str "FIELDS(ALL)"), (200 : Int))
    else (soql, hardLimit)
  let soql := step.1
  let hardLimit := step.2
  let step2 :=
    if soql.LIMIT ≠ 0 then (min soql.LIMIT count, min soql.LIMIT hardLimit)
    else (count, hardLimit)
  let count := step2.1
  let hardLimit := step2.2
  if count > 2000 + hardLimit then
    Except.error ("Query matches too many results (" ++ toString count ++ ")")
  else
    let soql := { soql with LIMIT := hardLimit }
    let results := fetch soql
    let out := runPages fetch count fuel soql results
    Except.ok (out.1, soql :: out.2)

/-- The query state `SF.query` passes to its page fetches: `soql0` with
`preload_fields` resolved, the projection replaced by `FIELDS(ALL)` when
preloading, and `LIMIT` set to the effective hard limit `C`. -/
def pageState (soql0 : SOQLState) (sfPreload : Bool) (C : Int) : SOQLState :=
  { (if soql0.preload_fields.getD sfPreload
     then SELECTset { soql0 with preload_fields := Option.some true }
       (CsvInput.str "FIELDS(ALL)")
     else { soql0 with
            preload_fields := Option.some (soql0.preload_fields.getD sfPreload) })
    with LIMIT := C }

/-- Outcome of one invocation of a remote action: normal return, a raised
`SalesforceExpiredSession` (with its message), or any other exception. -/
inductive CallOutcome (α : Type) where
  | ok (a : α)
  | expired (e : String)
  | fail (e : String)
deriving DecidableEq

/-- Outcome of `SF.refresh_oauth`: success, a raised `ValueError`, or any
other exception. -/
inductive RefreshOutcome where
  | ok
  | valueError (e : String)
  | fail (e : String)
deriving DecidableEq

/-- Observable effects of the retry wrapper: an invocation of the wrapped
action, of the refresh flow, or of the after-refresh callback. -/
inductive CallEvent where
  | call
  | refresh
  | afterRefresh
deriving DecidableEq

/-- `SF._sf_call_and_refresh` (src/sftools/sf.py): run the action; on
`SalesforceExpiredSession`, refresh once — a `ValueError` from the refresh
re-raises the ORIGINAL expiry error — then run the optional callback and
retry the action exactly once, propagating its outcome. `func n` is the
outcome of the action's `n`-th invocation; the event list records every
effect in order. -/
def sfCallAndRefresh {α : Type} (func : Nat → CallOutcome α)
    (refresh : RefreshOutcome) (hasAfterRefresh : Bool) :
    CallOutcome α × List CallEvent :=
  match func 0 with
  | CallOutcome.ok a => (CallOutcome.ok a, [CallEvent.call])
  | CallOutcome.fail e => (CallOutcome.fail e, [CallEvent.call])
  | CallOutcome.expired e =>
    match refresh with
    | RefreshOutcome.valueError _ =>
      (CallOutcome.expired e, [CallEvent.call, CallEvent.refresh])
    | RefreshOutcome.fail e2 =>
      (CallOutcome.fail e2, [CallEvent.call, CallEvent.refresh])
    | RefreshOutcome.ok =>
      let evs := [CallEvent.call, CallEvent.refresh] ++
        (if hasAfterRefresh then [CallEvent.afterRefresh] else [])
      (func 1, evs ++ [CallEvent.call])

/-- The state behind `SFType`'s identity cache (src/sftools/type.py):
`_sfobjects` maps a record identifier (`record.get('Id')`, possibly
`None`) to an object, and the heap gives each allocated `SFObject`'s
backing `_record` dict; an object reference is its heap index. -/
structure SFTypeState where
  sfobjects : List (Option String × Nat)
  heap : List RecordMap
deriving DecidableEq

/-- Dictionary lookup in the identity cache. -/
def lookupId : List (Option String × Nat) → Option String → Option Nat
  | [], _ => Option.none
  | (k, a) :: rest, i => if k = i then Option.some a else lookupId rest i

/-- `SFType._record_to_sfobject` (src/sftools/type.py): look up
`record.get('Id')` in the cache; if present, `obj.record.update(record)`
merges the new fields into the cached object's backing dict in place and
returns the same object; if absent, construct a new object backed by
`record`, cache it, and return it. -/
def recordToSfobject (st : SFTypeState) (record : RecordMap) :
    Nat × SFTypeState :=
  let objid := dictGet record "Id"
  match lookupId st.sfobjects objid with
  | Option.some addr =>
    (addr, { st with heap := st.heap.set addr (dictUpdate (st.heap.getD addr []) record) })
  | Option.none =>
    let addr := st.heap.length
    (addr, { sfobjects := st.sfobjects ++ [(objid, addr)], heap := st.heap ++ [record] })

/-- A heap of `SOQL` objects, indexed by allocation order; models Python
object identity for the frame claims about `SF.query` / `SF.query_count`,
where `copy(soql)` allocates a fresh object and every field assignment
mutates one object in place. -/
abbrev SOQLStore := List SOQLState

/-- Placeholder for out-of-range store reads (never hit under the
well-formedness hypotheses of the theorems). -/
def defaultSOQL : SOQLState :=
  { SELECT := [], FROM := Option.none, WHERE := Option.none, ORDER_BY := []
    LIMIT := 0, OFFSET := 0, preload_fields := Option.none }

/-- `SF.query_count` at the store level: `soql = copy(soql)` allocates a
fresh object, the `SELECT`/`ORDER_BY` mutations hit only that object, and
the caller's object at `a` is untouched. -/
def queryCountStore (fetch : SOQLState → QRDict) (store : SOQLStore)
    (a : Nat) : Int × SOQLStore :=
  let a2 := store.length
  let store1 := store ++ [store.getD a defaultSOQL]
  let store2 := store1.set a2 (SELECTset (store1.getD a2 defaultSOQL) (CsvInput.str "COUNT()"))
  let store3 := store2.set a2 (ORDER_BYdel (store2.getD a2 defaultSOQL))
  ((fetch (store3.getD a2 defaultSOQL)).totalSizeP, store3)

/-- The page loop of `SF.query` at the store level: each iteration mutates
the copied query object at `a` in place (`soql.OFFSET = ...`) and fetches
it. -/
def runPagesStore (fetch : SOQLState → QRDict) (count : Int) :
    Nat → SOQLStore → Nat → QRDict → QRDict × SOQLStore
  | 0, store, _, results => (results, store)
  | fuel + 1, store, a, results =>
    if results.totalSizeP < count then
      let store' := store.set a { (store.getD a defaultSOQL) with OFFSET := results.totalSizeP }
      let page := fetch (store'.getD a defaultSOQL)
      runPagesStore fetch count fuel store' a (qradd results page)
    else (results, store)

/-- `SF.query` at the store level: `soql = copy(soql_or_where)` allocates
a fresh object at index `store.length`, `query_count` makes its own copy,
and every subsequent mutation (`preload_fields`, `SELECT`, `LIMIT`,
`OFFSET`) hits only the fresh object. -/
def SFqueryStore (fetch : SOQLState → QRDict) (sfPreload : Bool)
    (fuel : Nat) (store : SOQLStore) (a : Nat) :
    Except String QRDict × SOQLStore :=
  let a2 := store.length
  let store1 := store ++ [store.getD a defaultSOQL]
  let cs := queryCountStore fetch store1 a2
  let count := cs.1
  let store2 := cs.2
  let hardLimit : Int := 2000
  let store3 := if (store2.getD a2 defaultSOQL).preload_fields = Option.none
    then store2.set a2 { (store2.getD a2 defaultSOQL) with preload_fields := Option.some sfPreload }
    else store2
  let pre := (store3.getD a2 defaultSOQL).preload_fields = Option.some true
  let store4 := if pre
    then store3.set a2 (SELECTset (store3.getD a2 defaultSOQL) (CsvInput.str "FIELDS(ALL)"))
    else store3
  let hardLimit1 := if pre then (200 : Int) else hardLimit
  let q := store4.getD a2 defaultSOQL
  let count1 := if q.LIMIT ≠ 0 then min q.LIMIT count else count
  let hardLimit2 := if q.LIMIT ≠ 0 then min q.LIMIT hardLimit1 else hardLimit1
  if count1 > 2000 + hardLimit2 then
    (Except.error ("Query matches too many results (" ++ toString count1 ++ ")"), store4)
  else
    let store5 := store4.set a2 { (store4.getD a2 defaultSOQL) with LIMIT := hardLimit2 }
    let results := fetch (store5.getD a2 defaultSOQL)
    let out := runPagesStore fetch count1 fuel store5 a2 results
    (Except.ok out.1, out.2)

/-- Fetch oracle used for concrete instantiations: the COUNT query reports
`n` matches; a page query at offset `k` returns `min(LIMIT, n - k)`
records and reports that many as its `totalSize`, as the remote does. -/
def pagedRemote (n : Int) (s : SOQLState) : QRDict :=
  if s.SELECT = ["COUNT()"] then
    { done := Option.some true, totalSize := Option.some n, records := Option.some [] }
  else
    let m := min s.LIMIT (n - s.OFFSET)
    { done := Option.some true, totalSize := Option.some m
      records := Option.some (List.replicate m.toNat [("Id", "x")]) }

/-- A concrete remote action for the retry-wrapper witness: expires on its
first invocation, succeeds on the retry. -/
def expireOnceAction : Nat → CallOutcome Nat
  | 0 => CallOutcome.expired "session expired"
  | _ + 1 => CallOutcome.ok 42

/-- A concrete remote action that expires on every invocation. -/
def expireTwiceAction : Nat → CallOutcome Nat :=
  fun _ => CallOutcome.expired "session expired"

end Sftools

namespace Sftools

/-! ## Supporting lemmas -/

theorem dedupFirstAux_sublist (l seen : List String) :
    (dedupFirstAux seen l).Sublist l := by
  induction l generalizing seen with
  | nil => simp [dedupFirstAux]
  | cons v rest ih =>
    simp only [dedupFirstAux]
    by_cases h : v ∈ seen
    · simp only [h, if_true]
      exact (ih seen).cons v
    · simp only [h, if_false]
      exact (ih (v :: seen)).cons₂ v

theorem mem_dedupFirstAux (l : List String) (seen : List String) (x : String) :
    x ∈ dedupFirstAux seen l ↔ (x ∈ l ∧ x ∉ seen) := by
  induction l generalizing seen with
  | nil => simp [dedupFirstAux]
  | cons v rest ih =>
    simp only [dedupFirstAux]
    by_cases h : v ∈ seen
    · simp only [h, if_true, ih, List.mem_cons]
      constructor
      · rintro ⟨hx, hs⟩
        exact ⟨Or.inr hx, hs⟩
      · rintro ⟨hx | hx, hs⟩
        · exact absurd h (hx ▸ hs)
        · exact ⟨hx, hs⟩
    · simp only [h, if_false, List.mem_cons, ih]
      constructor
      · rintro (hx | ⟨hx, hs⟩)
        · exact ⟨Or.inl hx, hx ▸ h⟩
        · have : x ∉ seen := fun hm => hs (Or.inr hm)
          refine ⟨Or.inr hx, this⟩
      · rintro ⟨hx | hx, hs⟩
        · exact Or.inl hx
        · by_cases hxv : x = v
          · exact Or.inl hxv
          · exact Or.inr ⟨hx, by simp [List.mem_cons, hxv, hs]⟩

theorem dedupFirstAux_nodup (l seen : List String) :
    (dedupFirstAux seen l).Nodup := by
  induction l generalizing seen with
  | nil => simp [dedupFirstAux]
  | cons v rest ih =>
    simp only [dedupFirstAux]
    by_cases h : v ∈ seen
    · simp only [h, if_true]
      exact ih seen
    · simp only [h, if_false, List.nodup_cons]
      refine ⟨fun hm => ?_, ih (v :: seen)⟩
      exact ((mem_dedupFirstAux rest (v :: seen) v).mp hm).2 (List.mem_cons_self v seen)

theorem dedupFirstAux_congr (l s1 s2 : List String)
    (h : ∀ x, x ∈ s1 ↔ x ∈ s2) :
    dedupFirstAux s1 l = dedupFirstAux s2 l := by
  induction l generalizing s1 s2 with
  | nil => simp [dedupFirstAux]
  | cons v rest ih =>
    simp only [dedupFirstAux]
    by_cases hv : v ∈ s1
    · simp only [hv, (h v).mp hv, if_true]
      exact ih s1 s2 h
    · have hv2 : v ∉ s2 := fun hm => hv ((h v).mpr hm)
      simp only [hv, hv2, if_false]
      have : ∀ x, x ∈ v :: s1 ↔ x ∈ v :: s2 := by
        intro x
        simp [List.mem_cons, h x]
      rw [ih (v :: s1) (v :: s2) this]

theorem foldl_dedupFirstAux (l acc : List String) :
    l.foldl (fun acc v => if v ∈ acc then acc else acc ++ [v]) acc =
      acc ++ dedupFirstAux acc l := by
  induction l generalizing acc with
  | nil => simp [dedupFirstAux]
  | cons v rest ih =>
    simp only [List.foldl_cons, dedupFirstAux]
    by_cases h : v ∈ acc
    · simp only [h, if_true]
      exact ih acc
    · simp only [h, if_false]
      rw [ih (acc ++ [v])]
      have : dedupFirstAux (acc ++ [v]) rest = dedupFirstAux (v :: acc) rest := by
        refine dedupFirstAux_congr rest _ _ (fun x => ?_)
        simp [List.mem_append, List.mem_cons, or_comm]
      rw [this, List.append_assoc]
      rfl

theorem dictGet_dictSet (d : RecordMap) (k v : String) (k' : String) :
    dictGet (dictSet d k v) k' = if k = k' then Option.some v else dictGet d k' := by
  induction d with
  | nil =>
    simp only [dictSet, dictGet]
  | cons kv rest ih =>
    obtain ⟨a, b⟩ := kv
    simp only [dictSet]
    by_cases hak : a = k
    · subst hak
      simp only [if_true, dictGet]
      by_cases hkk : a = k'
      · simp [hkk]
      · simp [hkk]
    · simp only [hak, if_false, dictGet, ih]
      by_cases hkk' : k = k'
      · subst hkk'
        simp [hak]
      · simp [hkk']

/-- A key absent from a record map looks up to `none`. -/
theorem dictGet_eq_none_of_not_mem_keys (d : RecordMap) (k : String)
    (h : k ∉ d.map Prod.fst) : dictGet d k = Option.none := by
  induction d with
  | nil => simp [dictGet]
  | cons kv rest ih =>
    obtain ⟨a, b⟩ := kv
    simp only [List.map_cons, List.mem_cons] at h
    push_neg at h
    simp only [dictGet]
    rw [if_neg (fun he => h.1 he.symm)]
    exact ih h.2

/-- Python `d.update(new)` for a genuine dict `new` (no duplicate keys):
lookup prefers `new` and falls back to `d`. -/
theorem dictGet_dictUpdate (d new : RecordMap) (k : String)
    (hnodup : (new.map Prod.fst).Nodup) :
    dictGet (dictUpdate d new) k = (dictGet new k).or (dictGet d k) := by
  induction new generalizing d with
  | nil => simp [dictUpdate, dictGet, Option.or]
  | cons kv rest ih =>
    obtain ⟨a, b⟩ := kv
    simp only [List.map_cons, List.nodup_cons] at hnodup
    have step : dictUpdate d ((a, b) :: rest) = dictUpdate (dictSet d a b) rest := by
      simp [dictUpdate, List.foldl_cons]
    rw [step, ih (dictSet d a b) hnodup.2]
    simp only [dictGet]
    by_cases hak : a = k
    · subst hak
      have : dictGet rest a = Option.none :=
        dictGet_eq_none_of_not_mem_keys rest a hnodup.1
      simp [this, dictGet_dictSet, Option.or]
    · simp [hak, dictGet_dictSet]

/-- Reduction of `SFquery` to its effective count, hard limit and page
states, after resolving `preload_fields`. -/
theorem SFquery_unfold (fetch : SOQLState → QRDict) (sfPreload : Bool)
    (fuel : Nat) (soql0 : SOQLState) :
    SFquery fetch sfPreload fuel soql0 =
      (let pl : Bool := soql0.preload_fields.getD sfPreload
       let soqlA : SOQLState :=
         if pl then SELECTset { soql0 with preload_fields := Option.some pl }
           (CsvInput.str "FIELDS(ALL)")
         else { soql0 with preload_fields := Option.some pl }
       let cap : Int := if pl then 200 else 2000
       let count : Int := if soql0.LIMIT ≠ 0
         then min soql0.LIMIT (queryCount fetch soql0)
         else queryCount fetch soql0
       let hard : Int := if soql0.LIMIT ≠ 0 then min soql0.LIMIT cap else cap
       if count > 2000 + hard then
         Except.error ("Query matches too many results (" ++ toString count ++ ")")
       else
         let soqlB : SOQLState := { soqlA with LIMIT := hard }
         let out := runPages fetch count fuel soqlB (fetch soqlB)
         Except.ok (out.1, soqlB :: out.2)) := by
  cases hpf : soql0.preload_fields with
  | none =>
    cases sfPreload <;> by_cases hL0 : soql0.LIMIT = 0 <;>
      simp [SFquery, SELECTset, hpf, hL0]
  | some b =>
    cases b <;> by_cases hL0 : soql0.LIMIT = 0 <;>
      simp [SFquery, SELECTset, hpf, hL0]

theorem ceil_div_small (a c : Nat) (hc : 0 < c) (h1 : 1 ≤ a) (h2 : a ≤ c) :
    (a + c - 1) / c = 1 := by
  have he : a + c - 1 = (a - 1) + c := by omega
  rw [he, Nat.add_div_right _ hc, Nat.div_eq_of_lt (by omega)]

theorem ceil_div_step (a c : Nat) (hc : 0 < c) (h : c < a) :
    (a + c - 1) / c = (a - c + c - 1) / c + 1 := by
  have he : a + c - 1 = (a - c + c - 1) + c := by omega
  rw [he, Nat.add_div_right _ hc]

/-- Invariant of the `SF.query` page loop: starting from an accumulator
holding `t` of the `N` matching records, the loop fetches pages at offsets
`t, t+C, t+2C, ...` — `ceil((N-t)/C)` of them — and ends with exactly `N`
records, a true `done` flag, and the summed `totalSize` equal to `N`. -/
theorem runPages_spec (fetch : SOQLState → QRDict) (N C : Int) (hC : 0 < C)
    (hfetch : ∀ s : SOQLState, s.SELECT ≠ ["COUNT()"] → s.LIMIT = C →
      0 ≤ s.OFFSET → s.OFFSET ≤ N →
      (fetch s).totalSizeP = min C (N - s.OFFSET) ∧
      (fetch s).recordsP.length = (min C (N - s.OFFSET)).toNat ∧
      (fetch s).doneP = true) :
    ∀ (fuel : Nat) (soql : SOQLState) (acc : QRDict) (t : Int),
      soql.SELECT ≠ ["COUNT()"] → soql.LIMIT = C →
      acc.totalSizeP = t → acc.recordsP.length = t.toNat → acc.doneP = true →
      0 ≤ t → t ≤ N → (N - t).toNat ≤ fuel →
      (runPages fetch N fuel soql acc).1.totalSizeP = N ∧
      (runPages fetch N fuel soql acc).1.recordsP.length = N.toNat ∧
      (runPages fetch N fuel soql acc).1.doneP = true ∧
      (runPages fetch N fuel soql acc).2.map SOQLState.OFFSET =
        (List.range (((N - t).toNat + C.toNat - 1) / C.toNat)).map
          (fun (j : Nat) => t + C * (j : Int)) ∧
      (∀ s ∈ (runPages fetch N fuel soql acc).2, s.LIMIT = C) := by
  have hCn : 0 < C.toNat := by omega
  intro fuel
  induction fuel with
  | zero =>
    intro soql acc t hsel hlim hts hrl hdone ht0 htN hfu
    have ht : t = N := by omega
    rw [ht] at hts hrl
    have hj : ((N - t).toNat + C.toNat - 1) / C.toNat = 0 := by
      rw [ht, sub_self, Int.toNat_zero, Nat.zero_add, Nat.div_eq_of_lt (by omega)]
    refine ⟨by simp [runPages, hts], by simp [runPages, hrl],
      by simp [runPages, hdone], ?_, by simp [runPages]⟩
    rw [hj]
    simp [runPages]
  | succ fuel ih =>
    intro soql acc t hsel hlim hts hrl hdone ht0 htN hfu
    by_cases hlt : t < N
    · have hred : runPages fetch N (fuel + 1) soql acc =
          ((runPages fetch N fuel { soql with OFFSET := t }
              (qradd acc (fetch { soql with OFFSET := t }))).1,
           { soql with OFFSET := t } ::
            (runPages fetch N fuel { soql with OFFSET := t }
              (qradd acc (fetch { soql with OFFSET := t }))).2) := by
        simp only [runPages, hts]
        rw [if_pos hlt]
      obtain ⟨hp1, hp2, hp3⟩ := hfetch { soql with OFFSET := t } hsel hlim
        (by exact ht0) (by exact le_of_lt hlt)
      have ho : ({ soql with OFFSET := t } : SOQLState).OFFSET = t := rfl
      rw [ho] at hp1 hp2
      have hone : (1 : Int) ≤ min C (N - t) := by
        rcases le_or_lt (N - t) C with hc | hc
        · rw [min_eq_right hc]; omega
        · rw [min_eq_left (le_of_lt hc)]; omega
      have hts' : (qradd acc (fetch { soql with OFFSET := t })).totalSizeP =
          t + min C (N - t) := by
        show acc.totalSizeP + (fetch { soql with OFFSET := t }).totalSizeP = _
        rw [hts, hp1]
      have hrl' : (qradd acc (fetch { soql with OFFSET := t })).recordsP.length =
          (t + min C (N - t)).toNat := by
        show (acc.recordsP ++ (fetch { soql with OFFSET := t }).recordsP).length = _
        rw [List.length_append, hrl, hp2]
        omega
      have hdone' : (qradd acc (fetch { soql with OFFSET := t })).doneP = true := by
        show (acc.doneP || (fetch { soql with OFFSET := t }).doneP) = true
        rw [hdone, Bool.true_or]
      rcases le_or_lt (N - t) C with hcase | hcase
      · -- last page: the fetch returns the remaining N - t records
        have hmin : min C (N - t) = N - t := min_eq_right hcase
        have htN' : t + min C (N - t) = N := by rw [hmin]; ring
        obtain ⟨ih1, ih2, ih3, ih4, ih5⟩ :=
          ih { soql with OFFSET := t } (qradd acc (fetch { soql with OFFSET := t })) N
            hsel hlim (by rw [hts', htN']) (by rw [hrl', htN']) hdone'
            (by omega) le_rfl (by omega)
        have hj1 : ((N - t).toNat + C.toNat - 1) / C.toNat = 1 :=
          ceil_div_small _ _ hCn (by omega) (by omega)
        have hj0 : ((N - N).toNat + C.toNat - 1) / C.toNat = 0 := by
          rw [sub_self, Int.toNat_zero, Nat.zero_add, Nat.div_eq_of_lt (by omega)]
        refine ⟨by rw [hred]; exact ih1, by rw [hred]; exact ih2,
          by rw [hred]; exact ih3, ?_, ?_⟩
        · rw [hred, hj1]
          have hmap0 : (runPages fetch N fuel { soql with OFFSET := t }
              (qradd acc (fetch { soql with OFFSET := t }))).2.map SOQLState.OFFSET = [] := by
            rw [ih4, hj0]
            rfl
          simp only [List.map_cons, hmap0]
          simp [List.range_succ]
        · rw [hred]
          intro s hs
          rcases List.mem_cons.mp hs with hs | hs
          · rw [hs]; exact hlim
          · exact ih5 s hs
      · -- full page: the fetch returns C records and the loop continues
        have hmin : min C (N - t) = C := min_eq_left (le_of_lt hcase)
        obtain ⟨ih1, ih2, ih3, ih4, ih5⟩ :=
          ih { soql with OFFSET := t } (qradd acc (fetch { soql with OFFSET := t })) (t + C)
            hsel hlim (by rw [hts', hmin]) (by rw [hrl', hmin]) hdone'
            (by omega) (by omega) (by omega)
        have hstep : ((N - t).toNat + C.toNat - 1) / C.toNat =
            ((N - (t + C)).toNat + C.toNat - 1) / C.toNat + 1 := by
          have ha : C.toNat < (N - t).toNat := by omega
          rw [ceil_div_step _ _ hCn ha]
          congr 2
          omega
        refine ⟨by rw [hred]; exact ih1, by rw [hred]; exact ih2,
          by rw [hred]; exact ih3, ?_, ?_⟩
        · rw [hred]
          simp only [List.map_cons, ih4, hstep, List.range_succ_eq_map,
            List.map_map]
          congr 1
          · simp
          · apply List.map_congr_left
            intro j _
            simp only [Function.comp_apply]
            push_cast
            ring
        · rw [hred]
          intro s hs
          rcases List.mem_cons.mp hs with hs | hs
          · rw [hs]; exact hlim
          · exact ih5 s hs
    · -- accumulated count already reaches the total: the loop exits
      have ht : t = N := by omega
      have hred : runPages fetch N (fuel + 1) soql acc = (acc, []) := by
        simp only [runPages, hts]
        rw [if_neg hlt]
      rw [ht] at hts hrl
      have hj : ((N - t).toNat + C.toNat - 1) / C.toNat = 0 := by
        rw [ht, sub_self, Int.toNat_zero, Nat.zero_add, Nat.div_eq_of_lt (by omega)]
      refine ⟨by rw [hred]; exact hts, by rw [hred]; exact hrl,
        by rw [hred]; exact hdone, ?_, by rw [hred]; simp⟩
      rw [hred, hj]
      rfl

/-- When the bounds check passes, `SFquery` reduces to the page loop run
on `pageState`, with the capped count `N` and effective hard limit `C`. -/
theorem SFquery_ok (fetch : SOQLState → QRDict) (sfPreload : Bool)
    (fuel : Nat) (soql0 : SOQLState) (N C : Int)
    (hcnt : (if soql0.LIMIT ≠ 0 then min soql0.LIMIT (queryCount fetch soql0)
      else queryCount fetch soql0) = N)
    (hhard : (if soql0.LIMIT ≠ 0
      then min soql0.LIMIT
        (if soql0.preload_fields.getD sfPreload then (200 : Int) else 2000)
      else (if soql0.preload_fields.getD sfPreload then (200 : Int) else 2000)) = C)
    (hok : ¬ N > 2000 + C) :
    SFquery fetch sfPreload fuel soql0 =
      Except.ok
        ((runPages fetch N fuel (pageState soql0 sfPreload C)
            (fetch (pageState soql0 sfPreload C))).1,
         pageState soql0 sfPreload C ::
          (runPages fetch N fuel (pageState soql0 sfPreload C)
            (fetch (pageState soql0 sfPreload C))).2) := by
  rw [SFquery_unfold]
  cases hpl : soql0.preload_fields.getD sfPreload <;>
    by_cases hL0 : soql0.LIMIT = 0 <;>
      simp only [hpl, hL0, ne_eq, not_true_eq_false, not_false_eq_true, if_true,
        if_false, ite_true, ite_false, Bool.false_eq_true,
        Bool.true_eq_false] at hcnt hhard ⊢ <;>
    subst hcnt <;> subst hhard <;>
    rw [if_neg hok] <;>
    simp only [pageState, hpl, ite_true, ite_false, Bool.false_eq_true, if_false,
      if_true]
  all_goals rfl

/-- The first fetch plus the page loop: starting at offset 0 with the
query's limit set to `C`, the engine performs
`max 1 (ceil(N / C))` fetches at offsets `0, C, 2C, ...` and accumulates
exactly `N` records with a true complete flag. -/
theorem pageLoop_package (fetch : SOQLState → QRDict) (fuel : Nat)
    (N C : Int) (soqlB : SOQLState)
    (hC0 : 0 < C) (hN0 : 0 ≤ N)
    (hselB : soqlB.SELECT ≠ ["COUNT()"]) (hlimB : soqlB.LIMIT = C)
    (hoffB : soqlB.OFFSET = 0) (hfuel : N.toNat ≤ fuel)
    (hfetch : ∀ s : SOQLState, s.SELECT ≠ ["COUNT()"] → s.LIMIT = C →
      0 ≤ s.OFFSET → s.OFFSET ≤ N →
      (fetch s).totalSizeP = min C (N - s.OFFSET) ∧
      (fetch s).recordsP.length = (min C (N - s.OFFSET)).toNat ∧
      (fetch s).doneP = true) :
    (runPages fetch N fuel soqlB (fetch soqlB)).1.totalSizeP = N ∧
    (runPages fetch N fuel soqlB (fetch soqlB)).1.recordsP.length = N.toNat ∧
    (runPages fetch N fuel soqlB (fetch soqlB)).1.doneP = true ∧
    (soqlB :: (runPages fetch N fuel soqlB (fetch soqlB)).2).map SOQLState.OFFSET =
      (List.range (max 1 ((N.toNat + C.toNat - 1) / C.toNat))).map
        (fun (j : Nat) => C * (j : Int)) ∧
    (soqlB :: (runPages fetch N fuel soqlB (fetch soqlB)).2).length =
      max 1 ((N.toNat + C.toNat - 1) / C.toNat) ∧
    (∀ s ∈ soqlB :: (runPages fetch N fuel soqlB (fetch soqlB)).2, s.LIMIT = C) := by
  have hCn : 0 < C.toNat := by omega
  obtain ⟨hp1, hp2, hp3⟩ := hfetch soqlB hselB hlimB (by rw [hoffB])
    (by rw [hoffB]; exact hN0)
  rw [hoffB, sub_zero] at hp1 hp2
  have ht0 : (0 : Int) ≤ min C N := le_min (le_of_lt hC0) hN0
  have htN : min C N ≤ N := min_le_right _ _
  have hfu2 : (N - min C N).toNat ≤ fuel := by
    rcases le_total C N with h | h
    · rw [min_eq_left h]; omega
    · rw [min_eq_right h]; omega
  obtain ⟨r1, r2, r3, r4, r5⟩ := runPages_spec fetch N C hC0 hfetch fuel soqlB
    (fetch soqlB) (min C N) hselB hlimB hp1 hp2 hp3 ht0 htN hfu2
  refine ⟨r1, r2, r3, ?_, ?_, ?_⟩
  · rcases lt_or_le C N with hcase | hcase
    · rw [min_eq_left (le_of_lt hcase)] at r4
      have hk : max 1 ((N.toNat + C.toNat - 1) / C.toNat) =
          ((N - C).toNat + C.toNat - 1) / C.toNat + 1 := by
        have ha : C.toNat < N.toNat := by omega
        have h1 := ceil_div_step N.toNat C.toNat hCn ha
        have h2 : N.toNat - C.toNat = (N - C).toNat := by omega
        rw [h1, h2]
        exact Nat.max_eq_right (Nat.succ_le_succ (Nat.zero_le _))
      rw [hk, List.map_cons, hoffB, r4, List.range_succ_eq_map, List.map_cons,
        List.map_map]
      congr 1
      · simp
      · apply List.map_congr_left
        intro j _
        simp only [Function.comp_apply]
        push_cast
        ring
    · rw [min_eq_right hcase] at r4
      have hj0 : ((N - N).toNat + C.toNat - 1) / C.toNat = 0 := by
        rw [sub_self, Int.toNat_zero, Nat.zero_add, Nat.div_eq_of_lt (by omega)]
      rw [hj0] at r4
      have hk1 : max 1 ((N.toNat + C.toNat - 1) / C.toNat) = 1 := by
        rcases Nat.eq_zero_or_pos N.toNat with h0 | hpos
        · have hz : (N.toNat + C.toNat - 1) / C.toNat = 0 := by
            rw [h0, Nat.zero_add, Nat.div_eq_of_lt (by omega)]
          rw [hz]
          decide
        · rw [ceil_div_small _ _ hCn hpos (by omega)]
          decide
      rw [hk1, List.map_cons, hoffB, r4]
      simp [List.range_succ]
  · rcases lt_or_le C N with hcase | hcase
    · rw [min_eq_left (le_of_lt hcase)] at r4
      have hlen : (runPages fetch N fuel soqlB (fetch soqlB)).2.length =
          ((N - C).toNat + C.toNat - 1) / C.toNat := by
        have hh := congrArg List.length r4
        simpa using hh
      have ha : C.toNat < N.toNat := by omega
      have h1 := ceil_div_step N.toNat C.toNat hCn ha
      have h2 : N.toNat - C.toNat = (N - C).toNat := by omega
      rw [List.length_cons, hlen, h1, h2,
        Nat.max_eq_right (Nat.succ_le_succ (Nat.zero_le _))]
    · rw [min_eq_right hcase] at r4
      have hj0 : ((N - N).toNat + C.toNat - 1) / C.toNat = 0 := by
        rw [sub_self, Int.toNat_zero, Nat.zero_add, Nat.div_eq_of_lt (by omega)]
      rw [hj0] at r4
      have hlen : (runPages fetch N fuel soqlB (fetch soqlB)).2.length = 0 := by
        have hh := congrArg List.length r4
        simpa using hh
      have hk1 : max 1 ((N.toNat + C.toNat - 1) / C.toNat) = 1 := by
        rcases Nat.eq_zero_or_pos N.toNat with h0 | hpos
        · have hz : (N.toNat + C.toNat - 1) / C.toNat = 0 := by
            rw [h0, Nat.zero_add, Nat.div_eq_of_lt (by omega)]
          rw [hz]
          decide
        · rw [ceil_div_small _ _ hCn hpos (by omega)]
          decide
      rw [List.length_cons, hlen, hk1]
  · intro s hs
    rcases List.mem_cons.mp hs with hs | hs
    · rw [hs]; exact hlimB
    · exact r5 s hs

/-- When the bounds check fails, `SFquery` raises with the offending
count in the message. -/
theorem SFquery_err (fetch : SOQLState → QRDict) (sfPreload : Bool)
    (fuel : Nat) (soql0 : SOQLState) (N C : Int)
    (hcnt : (if soql0.LIMIT ≠ 0 then min soql0.LIMIT (queryCount fetch soql0)
      else queryCount fetch soql0) = N)
    (hhard : (if soql0.LIMIT ≠ 0
      then min soql0.LIMIT
        (if soql0.preload_fields.getD sfPreload then (200 : Int) else 2000)
      else (if soql0.preload_fields.getD sfPreload then (200 : Int) else 2000)) = C)
    (hgt : N > 2000 + C) :
    SFquery fetch sfPreload fuel soql0 =
      Except.error ("Query matches too many results (" ++ toString N ++ ")") := by
  rw [SFquery_unfold]
  cases hpl : soql0.preload_fields.getD sfPreload <;>
    by_cases hL0 : soql0.LIMIT = 0 <;>
      simp only [hpl, hL0, ne_eq, not_true_eq_false, not_false_eq_true, if_true,
        if_false, ite_true, ite_false, Bool.false_eq_true,
        Bool.true_eq_false] at hcnt hhard ⊢ <;>
    subst hcnt <;> subst hhard <;>
    rw [if_pos hgt]

/-- The concrete oracle `pagedRemote n` satisfies the page-fetch
assumption for any effective limit `C`. -/
theorem pagedRemote_fetch_spec (n C : Int) :
    ∀ s : SOQLState, s.SELECT ≠ ["COUNT()"] → s.LIMIT = C →
      0 ≤ s.OFFSET → s.OFFSET ≤ n →
      (pagedRemote n s).totalSizeP = min C (n - s.OFFSET) ∧
      (pagedRemote n s).recordsP.length = (min C (n - s.OFFSET)).toNat ∧
      (pagedRemote n s).doneP = true := by
  intro s hsel hlim _ _
  rw [← hlim]
  simp [pagedRemote, hsel, QRDict.totalSizeP, QRDict.recordsP, QRDict.doneP]

/-- C1 counterexample: merging the spec's round-trip example
`PagedResult(total=10, complete=false, records=[r1,r2])` with
`PagedResult(total=10, complete=true, records=[r3,r4])` yields a merged
total of 20, not the claimed fixed total 10: `QueryResult.__add__` SUMS
`totalSize`. -/
theorem C1_total_summed_counterexample :
    (qradd
      { done := Option.some false, totalSize := Option.some 10
        records := Option.some [[("Id", "r1")], [("Id", "r2")]] }
      { done := Option.some true, totalSize := Option.some 10
        records := Option.some [[("Id", "r3")], [("Id", "r4")]] }).totalSizeP = 20 ∧
    (20 : Int) ≠ 10 := by
  refine ⟨rfl, by decide⟩

/-- C1 (amended): merging paged result `A` with new page `B` concatenates
the records in append order and ORs the complete flags, but the total of
the merged result is the SUM `A.total + B.total`, not `A.total`
unchanged. -/
theorem C1_merge_rule (a b : QRDict) :
    (qradd a b).recordsP = a.recordsP ++ b.recordsP ∧
    (qradd a b).doneP = (a.doneP || b.doneP) ∧
    (qradd a b).totalSizeP = a.totalSizeP + b.totalSizeP :=
  ⟨rfl, rfl, rfl⟩

/-! ## Claim C5: rendering the query text -/

/-- C5 counterexample: a reachable query state with `LIMIT = -1` (the
`LIMIT` setter accepts negatives) renders a ` LIMIT -1` clause, although
`-1 > 0` is false — the render guard is `limit != 0`, not `limit > 0`. -/
theorem C5_negative_limit_counterexample :
    clause { SELECT := ["Id"], FROM := Option.some "Case", WHERE := Option.none
             ORDER_BY := [], LIMIT := -1, OFFSET := 0, preload_fields := Option.none } =
      Except.ok "SELECT Id FROM Case LIMIT -1" ∧ ¬ (0 < (-1 : Int)) := by
  refine ⟨rfl, by decide⟩

/-- C5 (amended): rendering fails with `ValueError` when the projection is
empty or the source is unset/empty; otherwise it emits exactly
`SELECT <projection> FROM <source>`, then ` WHERE <filter>` only if the
filter is non-empty, ` ORDER BY <ordering>` only if the ordering is
non-empty, ` LIMIT <limit>` only if the limit is NONZERO, and
` OFFSET <offset>` only if the offset is NONZERO, in that fixed order. -/
theorem C5_render_rule (q : SOQLState) :
    (q.SELECT = [] → clause q = Except.error "SELECT is required") ∧
    (q.SELECT ≠ [] → truthyStr q.FROM = false →
      clause q = Except.error "FROM is required") ∧
    (q.SELECT ≠ [] → truthyStr q.FROM = true →
      clause q = Except.ok
        ("SELECT " ++ String.intercalate "," q.SELECT ++ " FROM " ++ q.FROM.getD "" ++
         (if truthyStr q.WHERE then " WHERE " ++ q.WHERE.getD "" else "") ++
         (if q.ORDER_BY ≠ [] then " ORDER BY " ++ String.intercalate "," q.ORDER_BY else "") ++
         (if q.LIMIT ≠ 0 then " LIMIT " ++ toString q.LIMIT else "") ++
         (if q.OFFSET ≠ 0 then " OFFSET " ++ toString q.OFFSET else ""))) := by
  refine ⟨fun h => ?_, fun h1 h2 => ?_, fun h1 h2 => ?_⟩
  · simp [clause, h]
  · rw [clause, if_neg h1, if_pos]
    simp [h2]
  · rw [clause, if_neg h1, if_neg (by simp [h2])]
    simp only [Except.ok.injEq]
    split_ifs <;> simp [String.append_assoc]

/-- C5 witness: the amended render rule applied to a fully populated
concrete query, and to the spec's `limit=0, offset=0, ordering=[]`
example where the LIMIT, OFFSET and ORDER BY clauses are all omitted. -/
theorem C5_render_rule_witness :
    clause { SELECT := ["Id", "X"], FROM := Option.some "Case"
             WHERE := Option.some "X=\x271\x27", ORDER_BY := ["Id"]
             LIMIT := 5, OFFSET := 2, preload_fields := Option.none } =
      Except.ok "SELECT Id,X FROM Case WHERE X=\x271\x27 ORDER BY Id LIMIT 5 OFFSET 2" ∧
    clause { SELECT := ["Id"], FROM := Option.some "Case", WHERE := Option.none
             ORDER_BY := [], LIMIT := 0, OFFSET := 0, preload_fields := Option.none } =
      Except.ok "SELECT Id FROM Case" := by
  constructor
  · rw [(C5_render_rule _).2.2 (by decide) (by decide)]
    rfl
  · rw [(C5_render_rule _).2.2 (by decide) (by decide)]
    rfl

/-! ## Claim C6: predicate helpers -/

/-- C6 counterexample: `WhereUtil.IN('Id')` with zero values returns
Python `None`, not the empty string. -/
theorem C6_in_none_counterexample :
    whereIN (Option.some "Id") [] = Option.none ∧
    (Option.none : Option String) ≠ Option.some "" := by
  refine ⟨rfl, by decide⟩

/-- C6 (amended): `IN` (and `LIKE`) return `None` — a falsy value, not the
empty string — when the field is falsy or no non-empty values remain;
`IN` with surviving values quotes each individually; `AND`/`OR`
parenthesize each truthy fragment, drop falsy fragments silently, join the
survivors with ` AND `/` OR `, and return the empty string when zero
fragments survive. -/
theorem C6_predicate_helpers (name value : Option String)
    (args frags : List (Option String)) :
    (truthyStr name = false → whereIN name args = Option.none) ∧
    (args.filter truthyStr = [] → whereIN name args = Option.none) ∧
    (truthyStr name = true → args.filter truthyStr ≠ [] →
      whereIN name args = Option.some
        (name.getD "" ++ " IN (" ++
         String.intercalate ","
           ((args.filter truthyStr).map (fun a => "\x27" ++ a.getD "" ++ "\x27")) ++ ")")) ∧
    (truthyStr name = false ∨ truthyStr value = false →
      whereLIKE name value = Option.none) ∧
    (whereAND frags = String.intercalate " AND "
       ((frags.filter truthyStr).map (fun a => "(" ++ a.getD "" ++ ")"))) ∧
    (whereOR frags = String.intercalate " OR "
       ((frags.filter truthyStr).map (fun a => "(" ++ a.getD "" ++ ")"))) ∧
    (frags.filter truthyStr = [] → whereAND frags = "" ∧ whereOR frags = "") := by
  refine ⟨fun h => ?_, fun h => ?_, fun h1 h2 => ?_, fun h => ?_, rfl, rfl, fun h => ?_⟩
  · simp [whereIN, h]
  · cases hn : truthyStr name with
    | false => simp [whereIN, hn]
    | true => simp [whereIN, hn, h]
  · simp [whereIN, h1, h2]
  · rcases h with h | h
    · simp [whereLIKE, h]
    · simp only [whereLIKE]
      split_ifs <;> simp_all
  · refine ⟨?_, ?_⟩ <;>
    · simp only [whereAND, whereOR, whereJOIN, h, List.map_nil]
      rfl

/-- C6 witness: the amended helper rules applied to the spec's concrete
examples: `AND("", "X='1'", None)` gives `"(X='1')"`, `IN("Id","a","b")`
gives `"Id IN ('a','b')"`, and all-empty `AND`/`OR` give `""`. -/
theorem C6_predicate_helpers_witness :
    whereAND [Option.some "", Option.some "X=\x271\x27", Option.none] = "(X=\x271\x27)" ∧
    whereIN (Option.some "Id") [Option.some "a", Option.some "b"] =
      Option.some "Id IN (\x27a\x27,\x27b\x27)" ∧
    whereAND [] = "" ∧ whereOR [Option.some "", Option.none] = "" := by
  refine ⟨?_, ?_, ?_, ?_⟩
  · rw [(C6_predicate_helpers Option.none Option.none []
      [Option.some "", Option.some "X=\x271\x27", Option.none]).2.2.2.2.1]
    rfl
  · rw [(C6_predicate_helpers (Option.some "Id") Option.none
      [Option.some "a", Option.some "b"] []).2.2.1 (by decide) (by decide)]
    rfl
  · exact ((C6_predicate_helpers Option.none Option.none [] []).2.2.2.2.2.2 (by decide)).1
  · exact ((C6_predicate_helpers Option.none Option.none []
      [Option.some "", Option.none]).2.2.2.2.2.2 (by decide)).2

/-! ## Claim C8: construction-time validation -/

/-- C8 counterexample: the `LIMIT` and `OFFSET` setters accept `-1`
without raising — `int(value or 0)` performs no sign check — so setting a
negative limit or offset does NOT raise a validation error. -/
theorem C8_negative_accepted_counterexample :
    LIMITset defaultSOQL (Option.some (-1)) =
      Except.ok { defaultSOQL with LIMIT := -1 } ∧
    OFFSETset defaultSOQL (Option.some (-1)) =
      Except.ok { defaultSOQL with OFFSET := -1 } := by
  refine ⟨rfl, rfl⟩

/-- C8 (amended): setting a source containing a comma raises `ValueError`
immediately, with the offending value in the message, and a comma-free (or
falsy) source is stored unchanged; the `LIMIT`/`OFFSET` setters never
raise — any integer (negatives included) is accepted, `None` coerced
to 0. -/
theorem C8_validation_rule (q : SOQLState) (v : Option String) (n : Option Int) :
    (truthyStr v = true → ',' ∈ (v.getD "").data →
      FROMset q v = Except.error ("Only support a single object in FROM: " ++ v.getD "")) ∧
    (¬ (truthyStr v = true ∧ ',' ∈ (v.getD "").data) →
      FROMset q v = Except.ok { q with FROM := v }) ∧
    LIMITset q n = Except.ok { q with LIMIT := n.getD 0 } ∧
    OFFSETset q n = Except.ok { q with OFFSET := n.getD 0 } := by
  refine ⟨fun h1 h2 => ?_, fun h => ?_, rfl, rfl⟩
  · simp [FROMset, h1, h2]
  · simp [FROMset, h]

/-- C8 witness: the validation rule at concrete inputs — a two-table
source is rejected with the value in the message, a single-table source is
accepted, and a negative limit is accepted without error. -/
theorem C8_validation_rule_witness :
    FROMset defaultSOQL (Option.some "Case,User") =
      Except.error "Only support a single object in FROM: Case,User" ∧
    FROMset defaultSOQL (Option.some "Case") =
      Except.ok { defaultSOQL with FROM := Option.some "Case" } ∧
    LIMITset defaultSOQL (Option.some (-5)) =
      Except.ok { defaultSOQL with LIMIT := -5 } := by
  refine ⟨?_, ?_, ?_⟩
  · rw [(C8_validation_rule defaultSOQL (Option.some "Case,User") Option.none).1
      (by decide) (by decide)]
    rfl
  · rw [(C8_validation_rule defaultSOQL (Option.some "Case") Option.none).2.1
      (by decide)]
  · rw [(C8_validation_rule defaultSOQL Option.none (Option.some (-5))).2.2.1]
    rfl

/-! ## Claim C7: projection append deduplicates -/

/-- C7: `SOQL.SELECT_AND` (the spec's `addProjection`) yields a
projection with no duplicates (case-sensitively), in first-seen order: it
is a sublist of the concatenated input, contains exactly its non-empty
elements, and equals the canonical first-seen deduplication fold. -/
theorem C7_projection_dedup (q : SOQLState) (value : CsvInput) :
    ((SELECT_AND q value).SELECT).Nodup ∧
    ((SELECT_AND q value).SELECT).Sublist
      ((q.SELECT ++ listFromCsv value Option.none).filter (fun v => v ≠ "")) ∧
    (∀ x, x ∈ (SELECT_AND q value).SELECT ↔
      (x ∈ q.SELECT ++ listFromCsv value Option.none ∧ x ≠ "")) ∧
    (SELECT_AND q value).SELECT =
      ((q.SELECT ++ listFromCsv value Option.none).filter (fun v => v ≠ "")).foldl
        (fun acc v => if v ∈ acc then acc else acc ++ [v]) [] := by
  have hsel : (SELECT_AND q value).SELECT =
      listFromCsv (CsvInput.lst (q.SELECT ++ listFromCsv value Option.none)) Option.none := rfl
  by_cases hnil : q.SELECT ++ listFromCsv value Option.none = []
  · have h1 : (SELECT_AND q value).SELECT = [] := by
      rw [hsel, hnil]
      rfl
    rw [h1, hnil]
    refine ⟨List.nodup_nil, by simp, fun x => by simp, by simp⟩
  · have hval : (SELECT_AND q value).SELECT =
        dedupFirst ((q.SELECT ++ listFromCsv value Option.none).filter (fun v => v ≠ "")) := by
      rw [hsel]
      show (if q.SELECT ++ listFromCsv value Option.none = [] then ([] : List String)
            else dedupFirst ((q.SELECT ++ listFromCsv value Option.none).filter
              (fun v => v ≠ ""))) = _
      rw [if_neg hnil]
    rw [hval]
    refine ⟨dedupFirstAux_nodup _ _, dedupFirstAux_sublist _ _, fun x => ?_, ?_⟩
    · rw [dedupFirst, mem_dedupFirstAux]
      simp only [List.mem_filter, List.mem_append, List.not_mem_nil, not_false_iff,
        and_true, decide_eq_true_eq]
    · rw [foldl_dedupFirstAux, List.nil_append, dedupFirst]

/-- C7 witness: appending `["A","B","A"]` to an empty projection yields
exactly `["A","B"]`, and re-appending an already present field keeps the
first-seen order. -/
theorem C7_projection_dedup_witness :
    (SELECT_AND { defaultSOQL with SELECT := [] }
      (CsvInput.lst ["A", "B", "A"])).SELECT = ["A", "B"] ∧
    (SELECT_AND { defaultSOQL with SELECT := ["B"] }
      (CsvInput.str " A, B ,A ")).SELECT = ["B", "A"] := by
  constructor
  · rw [(C7_projection_dedup { defaultSOQL with SELECT := [] }
      (CsvInput.lst ["A", "B", "A"])).2.2.2]
    rfl
  · rw [(C7_projection_dedup { defaultSOQL with SELECT := ["B"] }
      (CsvInput.str " A, B ,A ")).2.2.2]
    rfl

/-! ## Claim C4: session-expiry retry wrapper -/

/-- C4: `SF._sf_call_and_refresh` returns a successful action's result
with no refresh; on `SalesforceExpiredSession` it refreshes exactly once —
a `ValueError` from the refresh re-raises the ORIGINAL expiry error —
then runs the optional after-refresh callback and re-invokes the action
exactly once, propagating that second outcome; the refresh flow is never
invoked more than once, and the action never more than twice. -/
theorem C4_session_retry {α : Type} (func : Nat → CallOutcome α)
    (refresh : RefreshOutcome) (hasAfterRefresh : Bool) :
    (∀ a, func 0 = CallOutcome.ok a →
      sfCallAndRefresh func refresh hasAfterRefresh =
        (CallOutcome.ok a, [CallEvent.call])) ∧
    (∀ e, func 0 = CallOutcome.expired e →
      ((∀ v, refresh = RefreshOutcome.valueError v →
        sfCallAndRefresh func refresh hasAfterRefresh =
          (CallOutcome.expired e, [CallEvent.call, CallEvent.refresh])) ∧
       (refresh = RefreshOutcome.ok →
        sfCallAndRefresh func refresh hasAfterRefresh =
          (func 1, [CallEvent.call, CallEvent.refresh] ++
            (if hasAfterRefresh then [CallEvent.afterRefresh] else []) ++
            [CallEvent.call])))) ∧
    (sfCallAndRefresh func refresh hasAfterRefresh).2.count CallEvent.refresh ≤ 1 ∧
    (sfCallAndRefresh func refresh hasAfterRefresh).2.count CallEvent.call ≤ 2 := by
  refine ⟨fun a h => ?_, fun e h => ⟨fun v hv => ?_, fun hr => ?_⟩, ?_, ?_⟩
  · simp [sfCallAndRefresh, h]
  · simp [sfCallAndRefresh, h, hv]
  · simp [sfCallAndRefresh, h, hr]
  · cases hf : func 0 <;> cases hr : refresh <;> cases hasAfterRefresh <;>
      simp [sfCallAndRefresh, hf, hr]
  · cases hf : func 0 <;> cases hr : refresh <;> cases hasAfterRefresh <;>
      simp [sfCallAndRefresh, hf, hr]

/-- C4 witness: an action that expires once then succeeds returns the
success after exactly one refresh (callback included); an action that
expires twice propagates the second expiry after exactly one refresh; a
`ValueError` during refresh re-raises the original expiry with no retry
of the action. -/
theorem C4_session_retry_witness :
    sfCallAndRefresh expireOnceAction RefreshOutcome.ok true =
      (CallOutcome.ok 42,
       [CallEvent.call, CallEvent.refresh, CallEvent.afterRefresh, CallEvent.call]) ∧
    sfCallAndRefresh expireTwiceAction RefreshOutcome.ok false =
      (CallOutcome.expired "session expired",
       [CallEvent.call, CallEvent.refresh, CallEvent.call]) ∧
    sfCallAndRefresh expireOnceAction (RefreshOutcome.valueError "no refresh_token") false =
      (CallOutcome.expired "session expired", [CallEvent.call, CallEvent.refresh]) := by
  refine ⟨?_, ?_, ?_⟩
  · rw [((C4_session_retry expireOnceAction RefreshOutcome.ok true).2.1
      "session expired" rfl).2 rfl]
    rfl
  · rw [((C4_session_retry expireTwiceAction RefreshOutcome.ok false).2.1
      "session expired" rfl).2 rfl]
    rfl
  · exact ((C4_session_retry expireOnceAction
      (RefreshOutcome.valueError "no refresh_token") false).2.1
      "session expired" rfl).1 "no refresh_token" rfl

theorem getD_append_left {α : Type} (l l2 : List α) (i : Nat) (d : α)
    (h : i < l.length) : (l ++ l2).getD i d = l.getD i d := by
  induction l generalizing i with
  | nil => simp at h
  | cons a rest ih =>
    cases i with
    | zero => rfl
    | succ j =>
      rw [List.cons_append, List.getD_cons_succ, List.getD_cons_succ, ih]
      simpa using h

theorem getD_append_self {α : Type} (l : List α) (x : α) (d : α) :
    (l ++ [x]).getD l.length d = x := by
  induction l with
  | nil => rfl
  | cons a rest ih =>
    rw [List.cons_append, List.length_cons, List.getD_cons_succ, ih]

theorem getD_set_self {α : Type} (l : List α) (i : Nat) (x : α) (d : α)
    (h : i < l.length) : (l.set i x).getD i d = x := by
  induction l generalizing i with
  | nil => simp at h
  | cons a rest ih =>
    cases i with
    | zero => rfl
    | succ j =>
      rw [List.set_cons_succ, List.getD_cons_succ, ih]
      simpa using h

theorem getD_set_ne {α : Type} (l : List α) (i j : Nat) (x : α) (d : α)
    (h : i ≠ j) : (l.set i x).getD j d = l.getD j d := by
  induction l generalizing i j with
  | nil => simp [List.set]
  | cons a rest ih =>
    cases i with
    | zero =>
      cases j with
      | zero => exact absurd rfl h
      | succ j' => rfl
    | succ i' =>
      cases j with
      | zero => rfl
      | succ j' =>
        rw [List.set_cons_succ, List.getD_cons_succ, List.getD_cons_succ,
          ih i' j' (fun he => h (by rw [he]))]

theorem lookupId_append (l1 l2 : List (Option String × Nat)) (i : Option String) :
    lookupId (l1 ++ l2) i = (lookupId l1 i).or (lookupId l2 i) := by
  induction l1 with
  | nil => simp [lookupId, Option.or]
  | cons kv rest ih =>
    obtain ⟨k, a⟩ := kv
    simp only [List.cons_append, lookupId]
    by_cases hk : k = i
    · simp [hk, Option.or]
    · simp [hk, ih]

/-! ## Claim C9: per-type identity cache -/

/-- C9: materializing two records that share an identifier returns the
identical object reference both times; the second call merges its fields
into the existing object's backing mapping in place (no new allocation),
so the backing mapping contains the union of both mappings' fields (with
the later record winning on common keys); a record whose identifier is not
cached is constructed, cached under its identifier, and returned. -/
theorem C9_identity_cache (st : SFTypeState) (r1 r2 : RecordMap) (i : String)
    (hwf : ∀ oid addr, lookupId st.sfobjects oid = Option.some addr →
      addr < st.heap.length)
    (h1 : dictGet r1 "Id" = Option.some i)
    (h2 : dictGet r2 "Id" = Option.some i)
    (hk1 : (r1.map Prod.fst).Nodup) (hk2 : (r2.map Prod.fst).Nodup) :
    (recordToSfobject st r1).1 = (recordToSfobject (recordToSfobject st r1).2 r2).1 ∧
    (recordToSfobject (recordToSfobject st r1).2 r2).2.heap.length =
      (recordToSfobject st r1).2.heap.length ∧
    (∀ k v, dictGet r2 k = Option.some v →
      dictGet ((recordToSfobject (recordToSfobject st r1).2 r2).2.heap.getD
        (recordToSfobject st r1).1 []) k = Option.some v) ∧
    (∀ k v, dictGet r2 k = Option.none → dictGet r1 k = Option.some v →
      dictGet ((recordToSfobject (recordToSfobject st r1).2 r2).2.heap.getD
        (recordToSfobject st r1).1 []) k = Option.some v) ∧
    (lookupId st.sfobjects (Option.some i) = Option.none →
      (recordToSfobject st r1).1 = st.heap.length ∧
      (recordToSfobject st r1).2.heap.getD (recordToSfobject st r1).1 [] = r1 ∧
      lookupId (recordToSfobject st r1).2.sfobjects (Option.some i) =
        Option.some (recordToSfobject st r1).1) := by
  cases hl : lookupId st.sfobjects (Option.some i) with
  | some addr =>
    have haddr : addr < st.heap.length := hwf _ _ hl
    have hp1 : recordToSfobject st r1 =
        (addr,
         { st with heap :=
            (st.heap.set addr (dictUpdate (st.heap.getD addr []) r1)) }) := by
      simp [recordToSfobject, h1, hl]
    have hp2 : recordToSfobject (recordToSfobject st r1).2 r2 =
        (addr,
         { st with heap :=
            ((st.heap.set addr (dictUpdate (st.heap.getD addr []) r1)).set addr
              (dictUpdate ((st.heap.set addr
                  (dictUpdate (st.heap.getD addr []) r1)).getD addr []) r2)) }) := by
      rw [hp1]
      simp [recordToSfobject, h2, hl]
    have hback : (recordToSfobject (recordToSfobject st r1).2 r2).2.heap.getD
        (recordToSfobject st r1).1 [] =
        dictUpdate (dictUpdate (st.heap.getD addr []) r1) r2 := by
      rw [hp2, hp1]
      rw [getD_set_self _ _ _ _ (by simpa using haddr),
        getD_set_self _ _ _ _ haddr]
    refine ⟨by rw [hp2, hp1], ?_, fun k v hv => ?_, fun k v hv2 hv1 => ?_,
      fun hnone => Option.noConfusion hnone⟩
    · rw [hp2, hp1]
      simp
    · rw [hback, dictGet_dictUpdate _ _ _ hk2, hv]
      rfl
    · rw [hback, dictGet_dictUpdate _ _ _ hk2, hv2,
        dictGet_dictUpdate _ _ _ hk1, hv1]
      rfl
  | none =>
    have hp1 : recordToSfobject st r1 =
        (st.heap.length,
         { sfobjects := st.sfobjects ++ [(Option.some i, st.heap.length)]
           heap := st.heap ++ [r1] }) := by
      simp [recordToSfobject, h1, hl]
    have hl2 : lookupId (st.sfobjects ++ [(Option.some i, st.heap.length)])
        (Option.some i) = Option.some st.heap.length := by
      rw [lookupId_append, hl]
      simp [lookupId, Option.or]
    have hp2 : recordToSfobject (recordToSfobject st r1).2 r2 =
        (st.heap.length,
         { sfobjects := st.sfobjects ++ [(Option.some i, st.heap.length)]
           heap := ((st.heap ++ [r1]).set st.heap.length
             (dictUpdate ((st.heap ++ [r1]).getD st.heap.length []) r2)) }) := by
      rw [hp1]
      simp [recordToSfobject, h2, hl2]
    have hback : (recordToSfobject (recordToSfobject st r1).2 r2).2.heap.getD
        (recordToSfobject st r1).1 [] = dictUpdate r1 r2 := by
      rw [hp2, hp1]
      have hr : (st.heap ++ [r1]).getD st.heap.length [] = r1 := getD_append_self _ _ _
      rw [hr, getD_set_self]
      simp
    refine ⟨by rw [hp2, hp1], ?_, fun k v hv => ?_, fun k v hv2 hv1 => ?_,
      fun _ => ⟨by rw [hp1], ?_, ?_⟩⟩
    · rw [hp2, hp1]
      simp
    · rw [hback, dictGet_dictUpdate _ _ _ hk2, hv]
      rfl
    · rw [hback, dictGet_dictUpdate _ _ _ hk2, hv2]
      simpa using hv1
    · rw [hp1]
      exact getD_append_self _ _ _
    · rw [hp1]
      exact hl2

/-- C9 witness: starting from an empty cache, materializing
`{Id: "5", A: "1"}` then `{Id: "5", B: "2"}` returns the same reference
twice, and the backing mapping ends up with all three fields. -/
theorem C9_identity_cache_witness :
    (recordToSfobject { sfobjects := [], heap := [] } [("Id", "5"), ("A", "1")]).1 =
      (recordToSfobject (recordToSfobject { sfobjects := [], heap := [] }
        [("Id", "5"), ("A", "1")]).2 [("Id", "5"), ("B", "2")]).1 ∧
    dictGet ((recordToSfobject (recordToSfobject { sfobjects := [], heap := [] }
        [("Id", "5"), ("A", "1")]).2 [("Id", "5"), ("B", "2")]).2.heap.getD
      (recordToSfobject { sfobjects := [], heap := [] }
        [("Id", "5"), ("A", "1")]).1 []) "B" = Option.some "2" ∧
    dictGet ((recordToSfobject (recordToSfobject { sfobjects := [], heap := [] }
        [("Id", "5"), ("A", "1")]).2 [("Id", "5"), ("B", "2")]).2.heap.getD
      (recordToSfobject { sfobjects := [], heap := [] }
        [("Id", "5"), ("A", "1")]).1 []) "A" = Option.some "1" := by
  have h := C9_identity_cache { sfobjects := [], heap := [] }
    [("Id", "5"), ("A", "1")] [("Id", "5"), ("B", "2")] "5"
    (fun oid addr hx => by simp [lookupId] at hx)
    (by rfl) (by rfl) (by decide) (by decide)
  exact ⟨h.1, h.2.2.1 "B" "2" (by rfl), h.2.2.2.1 "A" "1" (by rfl) (by rfl)⟩

/-! ## Claim C2: the pagination loop -/

/-- C2 counterexample: the spec's own pagination example — counted total
4500 with ordinary ceiling 2000 and pages answering `min(C, N-k)` — does
NOT perform 3 page fetches returning 4500 records: `4500 > 2000 + 2000`,
so `SF.query` raises the too-many-results error before any page fetch. -/
theorem C2_too_many_counterexample :
    queryCount (pagedRemote 4500) defaultSOQL = 4500 ∧
    SFquery (pagedRemote 4500) false 10 defaultSOQL =
      Except.error "Query matches too many results (4500)" := by
  exact ⟨rfl, rfl⟩

/-- C2 (amended): provided the counted (capped) total `N` passes the
bounds check (`N ≤ 2000 + C`), the engine sets the query's limit to the
effective ceiling `C`, fetches page 0 at offset 0, and while the
accumulated count is below `N` fetches at offset equal to the accumulated
count: exactly `max 1 (ceil(N / C))` fetches at offsets `0, C, 2C, ...`,
returning `N` records with `complete = true`; for `N = 0` there is exactly
one fetch and the result is empty with `complete = true`. -/
theorem C2_pagination_loop (fetch : SOQLState → QRDict) (sfPreload : Bool)
    (fuel : Nat) (soql0 : SOQLState) (N C : Int)
    (hoff : soql0.OFFSET = 0)
    (hsel : soql0.SELECT ≠ ["COUNT()"])
    (hL : 0 ≤ soql0.LIMIT)
    (hC : C = if 0 < soql0.LIMIT
      then min soql0.LIMIT
        (if soql0.preload_fields.getD sfPreload then (200 : Int) else 2000)
      else (if soql0.preload_fields.getD sfPreload then (200 : Int) else 2000))
    (hN : N = if 0 < soql0.LIMIT
      then min soql0.LIMIT (queryCount fetch soql0)
      else queryCount fetch soql0)
    (hN0 : 0 ≤ N)
    (hbound : N ≤ 2000 + C)
    (hfuel : N.toNat ≤ fuel)
    (hfetch : ∀ s : SOQLState, s.SELECT ≠ ["COUNT()"] → s.LIMIT = C →
      0 ≤ s.OFFSET → s.OFFSET ≤ N →
      (fetch s).totalSizeP = min C (N - s.OFFSET) ∧
      (fetch s).recordsP.length = (min C (N - s.OFFSET)).toNat ∧
      (fetch s).doneP = true) :
    ∃ res trace, SFquery fetch sfPreload fuel soql0 = Except.ok (res, trace) ∧
      trace.length = max 1 ((N.toNat + C.toNat - 1) / C.toNat) ∧
      trace.map SOQLState.OFFSET =
        (List.range (max 1 ((N.toNat + C.toNat - 1) / C.toNat))).map
          (fun (j : Nat) => C * (j : Int)) ∧
      (∀ s ∈ trace, s.LIMIT = C) ∧
      res.totalSizeP = N ∧ res.recordsP.length = N.toNat ∧ res.doneP = true ∧
      (N = 0 → trace.length = 1 ∧ res.recordsP = []) := by
  have hcappos : (0 : Int) <
      (if soql0.preload_fields.getD sfPreload then (200 : Int) else 2000) := by
    split_ifs <;> norm_num
  have hC0 : 0 < C := by
    rw [hC]
    by_cases h : 0 < soql0.LIMIT
    · rw [if_pos h]
      exact lt_min h hcappos
    · rw [if_neg h]
      exact hcappos
  have hcnt : (if soql0.LIMIT ≠ 0 then min soql0.LIMIT (queryCount fetch soql0)
      else queryCount fetch soql0) = N := by
    rw [hN]
    by_cases h : soql0.LIMIT = 0
    · simp [h]
    · have hpos : 0 < soql0.LIMIT := by omega
      simp [h, hpos]
  have hhard : (if soql0.LIMIT ≠ 0
      then min soql0.LIMIT
        (if soql0.preload_fields.getD sfPreload then (200 : Int) else 2000)
      else (if soql0.preload_fields.getD sfPreload then (200 : Int) else 2000)) = C := by
    rw [hC]
    by_cases h : soql0.LIMIT = 0
    · simp [h]
    · have hpos : 0 < soql0.LIMIT := by omega
      simp [h, hpos]
  have hok : ¬ N > 2000 + C := by omega
  have hEq := SFquery_ok fetch sfPreload fuel soql0 N C hcnt hhard hok
  have hlimB : (pageState soql0 sfPreload C).LIMIT = C := rfl
  have hoffB : (pageState soql0 sfPreload C).OFFSET = 0 := by
    cases hpl : soql0.preload_fields.getD sfPreload <;>
      simp [pageState, SELECTset, hpl, hoff]
  have hselB : (pageState soql0 sfPreload C).SELECT ≠ ["COUNT()"] := by
    cases hpl : soql0.preload_fields.getD sfPreload
    · simpa [pageState, SELECTset, hpl] using hsel
    · simp only [pageState, hpl, ite_true]
      show listFromCsv (CsvInput.str "FIELDS(ALL)") Option.none ≠ ["COUNT()"]
      decide
  obtain ⟨p1, p2, p3, p4, p5, p6⟩ := pageLoop_package fetch fuel N C
    (pageState soql0 sfPreload C) hC0 hN0 hselB hlimB hoffB hfuel hfetch
  refine ⟨_, _, hEq, p5, p4, p6, p1, p2, p3, fun h0 => ⟨?_, ?_⟩⟩
  · have hz : (N.toNat + C.toNat - 1) / C.toNat = 0 := by
      rw [h0, Int.toNat_zero, Nat.zero_add, Nat.div_eq_of_lt (by omega)]
    rw [p5, hz]
    decide
  · have hzl : (runPages fetch N fuel (pageState soql0 sfPreload C)
        (fetch (pageState soql0 sfPreload C))).1.recordsP.length = 0 := by
      rw [p2, h0]
      rfl
    exact List.length_eq_zero.mp hzl

/-- C2 witness: a counted total of 3000 in ordinary mode (ceiling 2000,
no explicit limit) passes the bounds check and triggers exactly 2 page
fetches, at offsets 0 and 2000, accumulating all 3000 records with a true
complete flag. -/
theorem C2_pagination_loop_witness :
    ∃ res trace,
      SFquery (pagedRemote 3000) false 3000 defaultSOQL =
        Except.ok (res, trace) ∧
      trace.length = 2 ∧
      trace.map SOQLState.OFFSET = [0, 2000] ∧
      res.totalSizeP = 3000 ∧ res.recordsP.length = 3000 ∧ res.doneP = true := by
  obtain ⟨res, trace, h1, h2, h3, h4, h5, h6, h7, h8⟩ :=
    C2_pagination_loop (pagedRemote 3000) false 3000 defaultSOQL 3000 2000
      rfl (by decide) (by decide) (by decide) (by rfl) (by decide) (by decide)
      (by decide) (pagedRemote_fetch_spec 3000 2000)
  refine ⟨res, trace, h1, ?_, ?_, h5, ?_, h7⟩
  · rw [h2]
    decide
  · rw [h3]
    decide
  · rw [h6]
    rfl

/-! ## Claim C3: limits, caps and the bounds check -/

/-- C3: the mode cap is 2000 records per call (200 in preload-all-fields
mode); an explicit positive limit L makes the effective ceiling
`min(L, cap)` and caps the counted total to `min(L, total)`; the engine
fails — with the offending count in the message — if and only if the
capped total exceeds `2000 + ceiling`, and returns a result otherwise. -/
theorem C3_bounds_check (fetch : SOQLState → QRDict) (sfPreload : Bool)
    (fuel : Nat) (soql0 : SOQLState) (cap ceiling tot : Int)
    (hL : 0 ≤ soql0.LIMIT)
    (hcap : cap = if soql0.preload_fields.getD sfPreload then (200 : Int) else 2000)
    (hceil : ceiling = if 0 < soql0.LIMIT then min soql0.LIMIT cap else cap)
    (htot : tot = if 0 < soql0.LIMIT then min soql0.LIMIT (queryCount fetch soql0)
      else queryCount fetch soql0) :
    (∀ e, SFquery fetch sfPreload fuel soql0 = Except.error e ↔
      (tot > 2000 + ceiling ∧
       e = "Query matches too many results (" ++ toString tot ++ ")")) ∧
    (tot ≤ 2000 + ceiling →
      ∃ p, SFquery fetch sfPreload fuel soql0 = Except.ok p) := by
  have hcnt : (if soql0.LIMIT ≠ 0 then min soql0.LIMIT (queryCount fetch soql0)
      else queryCount fetch soql0) = tot := by
    rw [htot]
    by_cases h : soql0.LIMIT = 0
    · simp [h]
    · have hpos : 0 < soql0.LIMIT := by omega
      simp [h, hpos]
  have hhard : (if soql0.LIMIT ≠ 0
      then min soql0.LIMIT
        (if soql0.preload_fields.getD sfPreload then (200 : Int) else 2000)
      else (if soql0.preload_fields.getD sfPreload then (200 : Int) else 2000)) = ceiling := by
    rw [hceil, hcap]
    by_cases h : soql0.LIMIT = 0
    · simp [h]
    · have hpos : 0 < soql0.LIMIT := by omega
      simp [h, hpos]
  constructor
  · intro e
    by_cases hgt : tot > 2000 + ceiling
    · rw [SFquery_err fetch sfPreload fuel soql0 tot ceiling hcnt hhard hgt]
      constructor
      · intro he
        exact ⟨hgt, (Except.error.injEq _ _).mp he.symm⟩
      · rintro ⟨_, he⟩
        rw [he]
    · rw [SFquery_ok fetch sfPreload fuel soql0 tot ceiling hcnt hhard hgt]
      constructor
      · intro he
        exact absurd he (by simp)
      · rintro ⟨hgt2, _⟩
        exact absurd hgt2 hgt
  · intro hle
    have hgt : ¬ tot > 2000 + ceiling := by omega
    exact ⟨_, SFquery_ok fetch sfPreload fuel soql0 tot ceiling hcnt hhard hgt⟩

/-- C3 witness: a counted total of 4500 in preload-all-fields mode
(ceiling 200, no explicit limit) fails with the count in the message
because `4500 > 2000 + 200`; a total of 100 in ordinary mode succeeds. -/
theorem C3_bounds_check_witness :
    SFquery (pagedRemote 4500) true 5 defaultSOQL =
      Except.error "Query matches too many results (4500)" ∧
    ∃ p, SFquery (pagedRemote 100) false 100 defaultSOQL = Except.ok p := by
  constructor
  · exact ((C3_bounds_check (pagedRemote 4500) true 5 defaultSOQL 200 200 4500
      (by decide) (by rfl) (by decide) (by rfl)).1 _).mpr ⟨by decide, by rfl⟩
  · exact (C3_bounds_check (pagedRemote 100) false 100 defaultSOQL 2000 2000 100
      (by decide) (by rfl) (by decide) (by rfl)).2 (by decide)

/-! ## Claim C10: the caller's query object is never mutated -/

/-- The page loop mutates only the query object at its own index `a`. -/
theorem runPagesStore_frame (fetch : SOQLState → QRDict) (i a : Nat)
    (h : i ≠ a) :
    ∀ (count : Int) (fuel : Nat) (store : SOQLStore) (acc : QRDict),
      (runPagesStore fetch count fuel store a acc).2.getD i defaultSOQL =
        store.getD i defaultSOQL := by
  intro count fuel
  induction fuel with
  | zero =>
    intro store acc
    rfl
  | succ fuel ih =>
    intro store acc
    simp only [runPagesStore]
    by_cases hc : acc.totalSizeP < count
    · rw [if_pos hc]
      exact (ih _ _).trans (getD_set_ne store a i _ _ (fun hh => h hh.symm))
    · rw [if_neg hc]

/-- `SF.query_count` copies its argument: every pre-existing object in the
store — the caller's argument included — is unchanged when it returns. -/
theorem queryCountStore_frame (fetch : SOQLState → QRDict) (store : SOQLStore)
    (a i : Nat) (d : SOQLState) (hi : i < store.length) :
    (queryCountStore fetch store a).2.getD i d = store.getD i d := by
  simp only [queryCountStore]
  rw [getD_set_ne _ _ _ _ _ (by omega), getD_set_ne _ _ _ _ _ (by omega),
    getD_append_left _ _ _ _ hi]

/-- C10: `SF.query` and `SF.query_count` operate on a copy of the `SOQL`
argument: all their internal mutations (COUNT projection, ordering
deletion, preload resolution, limit clamp, per-page offset advance) hit
only freshly allocated objects, so every object that existed before the
call — in particular the caller's argument — is unchanged after it. -/
theorem C10_caller_unchanged (fetch : SOQLState → QRDict) (sfPreload : Bool)
    (fuel : Nat) (store : SOQLStore) (a i : Nat) (hi : i < store.length) :
    (queryCountStore fetch store a).2.getD i defaultSOQL =
      store.getD i defaultSOQL ∧
    (SFqueryStore fetch sfPreload fuel store a).2.getD i defaultSOQL =
      store.getD i defaultSOQL := by
  have hne : i ≠ store.length := by omega
  refine ⟨queryCountStore_frame fetch store a i defaultSOQL hi, ?_⟩
  have hset : ∀ (st : SOQLStore) (x : SOQLState),
      (st.set store.length x).getD i defaultSOQL = st.getD i defaultSOQL :=
    fun st x => getD_set_ne st store.length i x defaultSOQL (fun hh => hne hh.symm)
  have hqcf : (queryCountStore fetch (store ++ [store.getD a defaultSOQL])
        store.length).2.getD i defaultSOQL =
      (store ++ [store.getD a defaultSOQL]).getD i defaultSOQL :=
    queryCountStore_frame fetch _ store.length i defaultSOQL
      (by rw [List.length_append]; omega)
  have happ : (store ++ [store.getD a defaultSOQL]).getD i defaultSOQL =
      store.getD i defaultSOQL := getD_append_left _ _ _ _ hi
  have hrp : ∀ (count : Int) (fuel2 : Nat) (st : SOQLStore) (acc : QRDict),
      (runPagesStore fetch count fuel2 st store.length acc).2.getD i defaultSOQL =
        st.getD i defaultSOQL :=
    fun count fuel2 st acc => runPagesStore_frame fetch i store.length hne count fuel2 st acc
  simp only [SFqueryStore]
  split_ifs <;> simp only [hrp, hset, hqcf, happ]

/-- C10 witness: running the store-level `query_count` and `query` on a
one-object store leaves the caller's object at index 0 untouched. -/
theorem C10_caller_unchanged_witness :
    (queryCountStore (pagedRemote 5) [defaultSOQL] 0).2.getD 0 defaultSOQL =
      [defaultSOQL].getD 0 defaultSOQL ∧
    (SFqueryStore (pagedRemote 5) false 5 [defaultSOQL] 0).2.getD 0 defaultSOQL =
      [defaultSOQL].getD 0 defaultSOQL :=
  C10_caller_unchanged (pagedRemote 5) false 5 [defaultSOQL] 0 0 (by decide)

end Sftools
